import Mathlib

/-!
Shallow embedding of the `paramount` NFS mount stress harness
(`src/paramount.cpp`, `src/tempdir.hpp`) and proofs about its
provisioning, verification and cleanup logic.
-/

namespace Paramount

/-! ## Decimal / hexadecimal rendering, as performed by the formatting library

`fmt::format("d{:04}", d)` renders `d` in decimal, zero-padded to a minimum
width of 4; `fmt::format("{:04x}", d)` renders in lowercase hexadecimal,
zero-padded to a minimum width of 4. -/

/-- Decimal digit character, `'0'` has code 48. -/
def digitChar (r : Nat) : Char := Char.ofNat (48 + r)

/-- Lowercase hexadecimal digit character (`'a'` has code 97 = 87 + 10). -/
def hexChar (r : Nat) : Char :=
  if r < 10 then Char.ofNat (48 + r) else Char.ofNat (87 + r)

/-- Most-significant-first digit string of `n` in base `base`, rendered with
`toC`, computed with explicit recursion fuel so that the definition is
structural (the kernel can evaluate it); `fuel ≥ n` always suffices. -/
def digitsAux (base : Nat) (toC : Nat → Char) : Nat → Nat → List Char
  | 0, n => [toC n]
  | fuel + 1, n =>
    if n < base then [toC n]
    else digitsAux base toC fuel (n / base) ++ [toC (n % base)]

/-- Most-significant-first digit string of `n` in the given base, using `toC`
to render a single digit. -/
def digitsIn (base : Nat) (toC : Nat → Char) (n : Nat) : List Char :=
  digitsAux base toC n n

/-- Value denoted by a digit string (most significant first), reading single
digits with `fromC`. -/
def valIn (base : Nat) (fromC : Char → Nat) (ds : List Char) : Nat :=
  ds.foldl (fun a c => base * a + fromC c) 0

/-- Decimal digit value. -/
def fromDec (c : Char) : Nat := c.toNat - 48

/-- Lowercase hexadecimal digit value. -/
def fromHex (c : Char) : Nat :=
  if 97 ≤ c.toNat then c.toNat - 87 else c.toNat - 48

theorem valIn_append_digit (base : Nat) (fromC : Char → Nat) (ds : List Char)
    (c : Char) :
    valIn base fromC (ds ++ [c]) = base * valIn base fromC ds + fromC c := by
  simp [valIn, List.foldl_append]

theorem valIn_replicate_zero (base : Nat) (fromC : Char → Nat)
    (hz : fromC '0' = 0) (k : Nat) (ds : List Char) :
    valIn base fromC (List.replicate k '0' ++ ds) = valIn base fromC ds := by
  induction k with
  | zero => simp
  | succ k ih =>
    have : List.replicate (k + 1) '0' ++ ds = '0' :: (List.replicate k '0' ++ ds) := by
      simp [List.replicate_succ]
    rw [this]
    simpa [valIn, hz] using ih

theorem valIn_digitsAux (base : Nat) (toC : Nat → Char) (fromC : Char → Nat)
    (hb : 2 ≤ base) (hrt : ∀ r, r < base → fromC (toC r) = r) :
    ∀ (fuel n : Nat), n ≤ fuel → valIn base fromC (digitsAux base toC fuel n) = n := by
  intro fuel
  induction fuel with
  | zero =>
    intro n hn
    have : n = 0 := Nat.le_zero.mp hn
    subst this
    simp [digitsAux, valIn, hrt 0 (by omega)]
  | succ fuel ih =>
    intro n hn
    rw [digitsAux]
    split
    · next h2 => simp [valIn, hrt _ h2]
    · next h2 =>
      rw [valIn_append_digit,
        ih (n / base) (by
          have : n / base < n := Nat.div_lt_self (by omega) (by omega)
          omega),
        hrt _ (Nat.mod_lt _ (by omega))]
      exact Nat.div_add_mod n base

theorem valIn_digitsIn (base : Nat) (toC : Nat → Char) (fromC : Char → Nat)
    (hb : 2 ≤ base) (hrt : ∀ r, r < base → fromC (toC r) = r) (n : Nat) :
    valIn base fromC (digitsIn base toC n) = n :=
  valIn_digitsAux base toC fromC hb hrt n n (Nat.le_refl n)

/-- Zero-pad a digit string on the left to minimum width `w`. -/
def zeroPad (w : Nat) (ds : List Char) : List Char :=
  List.replicate (w - ds.length) '0' ++ ds

theorem valIn_zeroPad (base : Nat) (fromC : Char → Nat) (hz : fromC '0' = 0)
    (w : Nat) (ds : List Char) :
    valIn base fromC (zeroPad w ds) = valIn base fromC ds :=
  valIn_replicate_zero base fromC hz _ ds

/-- The string produced by the format spec `{:04}` (decimal, zero-padded to
minimum width 4). -/
def fmt04 (n : Nat) : String := String.mk (zeroPad 4 (digitsIn 10 digitChar n))

/-- The string produced by the format spec `{:04x}` (lowercase hexadecimal,
zero-padded to minimum width 4). -/
def fmt04x (n : Nat) : String := String.mk (zeroPad 4 (digitsIn 16 hexChar n))

theorem fromDec_digitChar (r : Nat) (h : r < 10) : fromDec (digitChar r) = r := by
  interval_cases r <;> decide

theorem fromHex_hexChar (r : Nat) (h : r < 16) : fromHex (hexChar r) = r := by
  interval_cases r <;> decide

theorem fmt04_inj : Function.Injective fmt04 := by
  intro a b h
  have hdata : zeroPad 4 (digitsIn 10 digitChar a) =
      zeroPad 4 (digitsIn 10 digitChar b) := by
    simpa [fmt04] using congrArg String.data h
  have hval := congrArg (valIn 10 fromDec) hdata
  rwa [valIn_zeroPad 10 fromDec (by decide), valIn_zeroPad 10 fromDec (by decide),
    valIn_digitsIn 10 digitChar fromDec (by omega) fromDec_digitChar,
    valIn_digitsIn 10 digitChar fromDec (by omega) fromDec_digitChar] at hval

theorem fmt04x_inj : Function.Injective fmt04x := by
  intro a b h
  have hdata : zeroPad 4 (digitsIn 16 hexChar a) =
      zeroPad 4 (digitsIn 16 hexChar b) := by
    simpa [fmt04x] using congrArg String.data h
  have hval := congrArg (valIn 16 fromHex) hdata
  rwa [valIn_zeroPad 16 fromHex (by decide), valIn_zeroPad 16 fromHex (by decide),
    valIn_digitsIn 16 hexChar fromHex (by omega) fromHex_hexChar,
    valIn_digitsIn 16 hexChar fromHex (by omega) fromHex_hexChar] at hval

/-! ## MountPair allocation (`main`, lines 139–201)

The program creates `tmpdir/mount/d%04d` for `d = 0 .. threads-1`, then
`tmpdir/client/d%04d`, and maps each mount directory to the client directory
of the same index (`m_to_c[mdir[d]] = cdir[d]`). -/

/-- Subdirectory name used for index `d`: `fmt::format("d{:04}", d)`. -/
def dirName (d : Nat) : String := "d" ++ fmt04 d

/-- A server-side export directory paired with its client-side mountpoint. -/
structure MountPair where
  ident : Nat
  serverDir : String
  clientDir : String
deriving Repr, DecidableEq

/-- Path of the `d`-th server-side mount directory (`mountdir / "d%04d"`). -/
def mountDirPath (tmpdir : String) (d : Nat) : String :=
  tmpdir ++ "/mount/" ++ dirName d

/-- Path of the `d`-th client-side mountpoint (`clientdir / "d%04d"`). -/
def clientDirPath (tmpdir : String) (d : Nat) : String :=
  tmpdir ++ "/client/" ++ dirName d

/-- The ordered sequence of mount pairs created by `main`'s allocation loops. -/
def allocatePairs (tmpdir : String) (n : Nat) : List MountPair :=
  (List.range n).map fun d => ⟨d, mountDirPath tmpdir d, clientDirPath tmpdir d⟩

theorem dirName_inj : Function.Injective dirName := by
  intro a b h
  apply fmt04_inj
  have hdata := congrArg String.data h
  simp only [dirName] at hdata
  have : ("d" ++ fmt04 a).data = 'd' :: (fmt04 a).data := rfl
  have hb : ("d" ++ fmt04 b).data = 'd' :: (fmt04 b).data := rfl
  rw [this, hb] at hdata
  exact String.ext (List.cons_injective hdata)

theorem mountDirPath_inj (tmpdir : String) :
    Function.Injective (mountDirPath tmpdir) := by
  intro a b h
  apply dirName_inj
  have hdata := congrArg String.data h
  simp only [mountDirPath, String.data_append] at hdata
  exact String.ext (List.append_cancel_left hdata)

theorem clientDirPath_inj (tmpdir : String) :
    Function.Injective (clientDirPath tmpdir) := by
  intro a b h
  apply dirName_inj
  have hdata := congrArg String.data h
  simp only [clientDirPath, String.data_append] at hdata
  exact String.ext (List.append_cancel_left hdata)

/-! ## Export table construction (`main`, lines 157–175)

For each `d`, the program writes one line `ef << mdir[d] << "\t*(" << opts
<< ")\n"` between the sentinel lines `### BEGIN paramount` and
`### END paramount`.  Streaming a `std::filesystem::path` into an `ostream`
inserts `std::quoted(native())`: the path is wrapped in double quotes and any
`"` or `\` character in it is preceded by a backslash. -/

/-- Escaping of a single character performed by `std::quoted`. -/
def quoteChar (c : Char) : List Char :=
  if c = '"' ∨ c = '\\' then ['\\', c] else [c]

/-- Rendering of a `std::filesystem::path` by `operator<<` (`std::quoted`). -/
def quotePath (p : String) : String :=
  String.mk ('"' :: ((p.data.map quoteChar).flatten ++ ['"']))

/-- Synthetic filesystem id for pair `d`:
`fmt::format("00000000-0000-0000-0000-00000000{:04x}", d)`. -/
def fsid (d : Nat) : String := "00000000-0000-0000-0000-00000000" ++ fmt04x d

/-- Export options for pair `d`:
`fmt::format("rw,no_subtree_check,no_root_squash,fsid={}", us)`. -/
def exportOptions (d : Nat) : String :=
  "rw,no_subtree_check,no_root_squash,fsid=" ++ fsid d

/-- The single export-table line written for pair `d`. -/
def exportEntry (tmpdir : String) (d : Nat) : String :=
  quotePath (mountDirPath tmpdir d) ++ "\t*(" ++ exportOptions d ++ ")"

/-- Sentinel line opening the paramount block of the export file. -/
def beginMarker : String := "### BEGIN paramount"

/-- Sentinel line closing the paramount block of the export file. -/
def endMarker : String := "### END paramount"

/-- All lines written to `/etc/exports.d/paramount.exports`. -/
def exportLines (tmpdir : String) (n : Nat) : List String :=
  beginMarker :: ((List.range n).map (exportEntry tmpdir) ++ [endMarker])

theorem fsid_inj : Function.Injective fsid := by
  intro a b h
  apply fmt04x_inj
  have hdata := congrArg String.data h
  simp only [fsid, String.data_append] at hdata
  exact String.ext (List.append_cancel_left hdata)

/-! ## Mount-table verification (`main`, lines 244–280)

Each line of `/proc/self/mounts` is split on spaces with
`boost::split(fields, mount, boost::is_any_of(" "), boost::token_compress_on)`
and then `fields[1]` and `fields[0]` are accessed. -/

/-- Helper for `splitFields`: `cur` holds the (reversed) characters of the
token currently being read, and `sep` records whether the scan is inside a
run of separators (`token_compress_on` merges runs of adjacent separators
into one split point, but leading and trailing separators still yield empty
tokens; `cur` is empty whenever `sep` is true). -/
def splitFieldsGo (cs : List Char) (cur : List Char) (sep : Bool) : List String :=
  match cs with
  | [] => [String.mk cur.reverse]
  | c :: rest =>
    if c = ' ' then
      if sep then splitFieldsGo rest [] true
      else String.mk cur.reverse :: splitFieldsGo rest [] true
    else
      splitFieldsGo rest (c :: cur) false

/-- Splitting of a mount-table line: `boost::split` on `' '` with
`token_compress_on`. -/
def splitFields (s : String) : List String := splitFieldsGo s.data [] false

/-- Outcome of processing one line of the live mount table. -/
inductive LineCheck where
  /-- The filter `fields[1] != "nfs" && fields[1] != "nfs4"` took the
  `continue` branch. -/
  | skipped : LineCheck
  /-- The record was looked up and its mountpoint check passed. -/
  | ok : LineCheck
  /-- The branch `EFMT("Mount not found in map")`, naming device `m`. -/
  | notFound (dev : String) : LineCheck
  /-- The branch `EFMT("Mount expected mountpoint c found srch->second")`,
naming device `m`. -/
  | badMountpoint (dev live exp : String) : LineCheck
  /-- A `fields[i]` vector subscript was out of bounds (undefined behaviour
  in the C++ source). -/
  | oob : LineCheck
deriving Repr, DecidableEq

/-- Processing of one mount-table line (`main`, lines 257–279): split the
line, test `fields[1]` against `nfs`/`nfs4`, then look `fields[0]` up in
`m_to_c` and compare the expectation against `fields[1]`. -/
def checkMountLine (m : List (String × String)) (line : String) : LineCheck :=
  match (splitFields line)[1]? with
  | none => .oob
  | some f1 =>
    if f1 ≠ "nfs" ∧ f1 ≠ "nfs4" then .skipped
    else
      match (splitFields line)[0]? with
      | none => .oob
      | some f0 =>
        match m.lookup f0 with
        | none => .notFound f0
        | some exp => if exp ≠ f1 then .badMountpoint f0 f1 exp else .ok

/-- Result of scanning the whole mount table. -/
inductive ScanResult where
  | allOk : ScanResult
  | failure (e : LineCheck) : ScanResult
deriving Repr, DecidableEq

/-- Scan of all mount-table lines; the first line whose check neither is
skipped nor passes stops the scan (the source calls `EFMT`, which exits). -/
def scanMounts (m : List (String × String)) : List String → ScanResult
  | [] => .allOk
  | l :: rest =>
    match checkMountLine m l with
    | .skipped => scanMounts m rest
    | .ok => scanMounts m rest
    | e => .failure e

/-! ## The global cleanup cell (`paramount.cpp`, lines 54–65, 115–124, 287–289)

`static std::optional<clean_function> cleanup` is the single teardown owner.
`sig_handler` runs the stored function and then calls `cleanup.reset()`;
the end of `main` runs the stored function but does not reset the optional. -/

/-- State of the global `std::optional<clean_function> cleanup`, together
with the number of times the stored cleanup body has executed. -/
structure CleanupCell where
  armed : Bool
  runs : Nat
deriving Repr, DecidableEq

/-- Effect of `sig_handler` (lines 58–65): if the optional is engaged, run
the function and reset the optional. -/
def sigHandlerStep (s : CleanupCell) : CleanupCell :=
  if s.armed then { armed := false, runs := s.runs + 1 } else s

/-- Effect of the end-of-`main` invocation (lines 287–289): if the optional
is engaged, run the function; the optional is not reset. -/
def mainExitStep (s : CleanupCell) : CleanupCell :=
  if s.armed then { s with runs := s.runs + 1 } else s

/-! ## Actions performed by the cleanup body (`paramount.cpp` 115–124,
`tempdir.hpp` 72–84) -/

/-- The externally visible steps the cleanup lambda can perform. -/
inductive CleanupAction where
  /-- The call `bp::system("umount -a -t nfs -l")`. -/
  | umountAllNfs : CleanupAction
  /-- The call `fs::remove(exports)` for `/etc/exports.d/paramount.exports`. -/
  | removeExportsFile : CleanupAction
  /-- The call `exportfs(ctx)`, i.e. re-activation via `exportfs -ra`. -/
  | runExportfs : CleanupAction
  /-- The call `fs::remove_all(dir_)` inside `TemporaryDirectory::DeleteNow`. -/
  | removeTempRoot (dir : String) : CleanupAction
deriving Repr, DecidableEq

/-- Model of `TemporaryDirectory::DeleteNow` (tempdir.hpp, lines 72–79): delete the
directory tree unless preservation was requested or the path is empty. -/
def deleteNow (preserve : Bool) (dir : String) : List CleanupAction :=
  if preserve = false ∧ dir ≠ "" then [.removeTempRoot dir] else []

/-- The sequence of actions performed by the `cleanup` lambda
(paramount.cpp, lines 115–124): unmount, remove the export file, re-run
`exportfs`, then `tdobj.DeleteNow()`. -/
def cleanupActions (preserve : Bool) (dir : String) : List CleanupAction :=
  [.umountAllNfs, .removeExportsFile, .runExportfs] ++ deleteNow preserve dir

/-! ## The whole run (`main`, lines 135–291)

`error` and `error_sys` print a diagnostic and call `exit(1)` directly: the
stack is not unwound, the `catch` block in `main` is not reached, and neither
the end-of-`main` cleanup invocation nor `tdobj`'s destructor runs.  In
contrast the export-file stream and the mount-table stream have exceptions
enabled on `failbit`, so their failures unwind to the `catch` block, which
sets `exit_code = EXIT_FAILURE`; the cleanup invocation at lines 287–289
then runs and `main` returns 1.

External collaborators are inputs: an `Oracle` records the success of each
directory creation, the export-file write, the error code observed from the
`exportfs` invocation, the value returned by each mount worker's future, and
the lines read from `/proc/self/mounts`. -/

/-- Results of the external collaborator calls made during one run. -/
structure Oracle where
  /-- Whether `fs::create_directory(mountdir)` succeeded. -/
  mkMountRootOk : Bool
  /-- Whether `fs::create_directory(mountdir / dXXXX)` succeeded for index `d`. -/
  mkMountDirOk : Nat → Bool
  /-- Writing `/etc/exports.d/paramount.exports` raised no stream error. -/
  exportWriteOk : Bool
  /-- Error code observed from the `exportfs -ra` invocation. -/
  exportfsErr : Nat
  /-- Whether `fs::create_directory(clientdir)` succeeded. -/
  mkClientRootOk : Bool
  /-- Whether `fs::create_directory(clientdir / dXXXX)` succeeded for index `d`. -/
  mkClientDirOk : Nat → Bool
  /-- Value returned by mount worker `d`'s future. -/
  workerRet : Nat → Nat
  /-- Opening `/proc/self/mounts` raised no stream error. -/
  mountsOpenOk : Bool
  /-- Lines read from `/proc/self/mounts`. -/
  mountLines : List String

/-- Externally visible outcome of one run of `main`. -/
structure RunResult where
  /-- The process exit code. -/
  exitCode : Nat
  /-- Whether the cleanup body executed before the process ended. -/
  cleanupRan : Bool
  /-- Whether the mount workers were launched. -/
  mountsAttempted : Bool
  /-- The counted number of failed workers (0 when the count was never
  reached). -/
  failures : Nat
  /-- Whether the run reached the mount-table scan. -/
  reachedVerification : Bool
  /-- Whether the scan performed an out-of-bounds vector access. -/
  ub : Bool
deriving Repr, DecidableEq

/-- The expected map `m_to_c` built by `main` (lines 198–201). -/
def expectedMap (tmpdir : String) (n : Nat) : List (String × String) :=
  (List.range n).map fun d => (mountDirPath tmpdir d, clientDirPath tmpdir d)

/-- Number of workers whose future returned non-zero (lines 234–239). -/
def failCount (o : Oracle) (n : Nat) : Nat :=
  ((List.range n).filter fun d => o.workerRet d ≠ 0).length

/-- One run of `main`'s `try` block together with the surrounding error
handling, driven by the collaborator results in `o`:

* a failed `create_directory` hits `EFMT_SYS` → `exit(1)`, no cleanup;
* a failed export-file write throws → caught → cleanup → return 1;
* a non-zero error from the `exportfs` call hits `EFMT_SYS` → `exit(1)`,
  no cleanup, before any worker is launched;
* after the workers are joined and their failures counted, a failure opening
  `/proc/self/mounts` throws → caught → cleanup → return 1;
* a mount-table record failing the check hits `EFMT` → `exit(1)`, no
  cleanup; a short record makes `fields[1]` an out-of-bounds access;
* otherwise the run falls through, cleanup runs, and `main` returns 0. -/
def runMain (tmpdir : String) (n : Nat) (o : Oracle) : RunResult :=
  if o.mkMountRootOk = false then
    { exitCode := 1, cleanupRan := false, mountsAttempted := false,
      failures := 0, reachedVerification := false, ub := false }
  else if ((List.range n).all o.mkMountDirOk) = false then
    { exitCode := 1, cleanupRan := false, mountsAttempted := false,
      failures := 0, reachedVerification := false, ub := false }
  else if o.exportWriteOk = false then
    { exitCode := 1, cleanupRan := true, mountsAttempted := false,
      failures := 0, reachedVerification := false, ub := false }
  else if o.exportfsErr ≠ 0 then
    { exitCode := 1, cleanupRan := false, mountsAttempted := false,
      failures := 0, reachedVerification := false, ub := false }
  else if o.mkClientRootOk = false then
    { exitCode := 1, cleanupRan := false, mountsAttempted := false,
      failures := 0, reachedVerification := false, ub := false }
  else if ((List.range n).all o.mkClientDirOk) = false then
    { exitCode := 1, cleanupRan := false, mountsAttempted := false,
      failures := 0, reachedVerification := false, ub := false }
  else if o.mountsOpenOk = false then
    { exitCode := 1, cleanupRan := true, mountsAttempted := true,
      failures := failCount o n, reachedVerification := false, ub := false }
  else
    match scanMounts (expectedMap tmpdir n) o.mountLines with
    | .allOk =>
      { exitCode := 0, cleanupRan := true, mountsAttempted := true,
        failures := failCount o n, reachedVerification := true, ub := false }
    | .failure .oob =>
      { exitCode := 0, cleanupRan := false, mountsAttempted := true,
        failures := failCount o n, reachedVerification := true, ub := true }
    | .failure _ =>
      { exitCode := 1, cleanupRan := false, mountsAttempted := true,
        failures := failCount o n, reachedVerification := true, ub := false }

/-- An oracle in which every collaborator call succeeds, every worker's
future returns 0 and the mount table is empty. -/
def allOkOracle : Oracle where
  mkMountRootOk := true
  mkMountDirOk := fun _ => true
  exportWriteOk := true
  exportfsErr := 0
  mkClientRootOk := true
  mkClientDirOk := fun _ => true
  workerRet := fun _ => 0
  mountsOpenOk := true
  mountLines := []

/-! ## Barrier-synchronized launch (`main`, lines 203–239)

`main` creates `boost::barrier(ctx.threads + 1)`, spawns one asynchronous
worker per pair, and waits on the barrier itself (line 232).  Each worker
first calls `start_barrier.wait()` and only then runs its mount command
(lines 215–228); `boost::barrier` blocks every caller of `wait()` until
`n + 1` parties have arrived.  Afterwards `main` joins the futures in index
order (lines 235–239).  The interleaving of the `n + 1` threads is modelled
as a small-step transition relation; `st d` is the value worker `d`'s lambda
returns. -/

/-- Phase of one mount worker thread. -/
inductive WorkerPhase where
  /-- Created by `std::async`, not yet at `start_barrier.wait()`. -/
  | spawned : WorkerPhase
  /-- Blocked in `start_barrier.wait()`. -/
  | arrived : WorkerPhase
  /-- Past the barrier, running its mount command. -/
  | mounting : WorkerPhase
  /-- The worker's lambda returned `status`. -/
  | finished (status : Nat) : WorkerPhase
deriving Repr, DecidableEq

/-- Phase of the launching thread. -/
inductive LauncherPhase where
  /-- Before its own `start_barrier.wait()` at line 232. -/
  | launching : LauncherPhase
  /-- Blocked in `start_barrier.wait()`. -/
  | arrived : LauncherPhase
  /-- Joining futures in index order; futures `0 .. k-1` collected into
  `acc` as (identifier, status) outcomes. -/
  | joining (k : Nat) (acc : List (Nat × Nat)) : LauncherPhase
  /-- All futures joined; `acc` is the full outcome sequence. -/
  | returned (acc : List (Nat × Nat)) : LauncherPhase
deriving Repr, DecidableEq

/-- A worker has reached (or passed) the barrier. -/
def arrivedW : WorkerPhase → Bool
  | .spawned => false
  | _ => true

/-- The launching thread has reached (or passed) the barrier. -/
def arrivedL : LauncherPhase → Bool
  | .launching => false
  | _ => true

/-- Combined state of the `n` workers and the launching thread. -/
structure LaunchState (n : Nat) where
  worker : Fin n → WorkerPhase
  launcher : LauncherPhase

/-- Release condition: `boost::barrier(n + 1)` releases its callers once all `n` workers and
the launching thread have called `wait()`. -/
def barrierReleased {n : Nat} (s : LaunchState n) : Prop :=
  (∀ j : Fin n, arrivedW (s.worker j) = true) ∧ arrivedL s.launcher = true

/-- Initial state: all workers spawned, launcher about to wait. -/
def initState (n : Nat) : LaunchState n :=
  { worker := fun _ => .spawned, launcher := .launching }

/-- One interleaved step of the launch phase. -/
inductive LStep (n : Nat) (st : Nat → Nat) : LaunchState n → LaunchState n → Prop where
  /-- A worker reaches `start_barrier.wait()` (line 215). -/
  | workerArrive (s : LaunchState n) (i : Fin n) (h : s.worker i = .spawned) :
      LStep n st s { s with worker := Function.update s.worker i .arrived }
  /-- A worker returns from `wait()` and starts its mount command; the
  barrier only releases once every party has arrived. -/
  | workerStartMount (s : LaunchState n) (i : Fin n) (h : s.worker i = .arrived)
      (hrel : barrierReleased s) :
      LStep n st s { s with worker := Function.update s.worker i .mounting }
  /-- A worker's mount command completes and its lambda returns `st i`. -/
  | workerFinish (s : LaunchState n) (i : Fin n) (h : s.worker i = .mounting) :
      LStep n st s { s with worker := Function.update s.worker i (.finished (st i)) }
  /-- The launching thread reaches `start_barrier.wait()` (line 232). -/
  | launcherArrive (s : LaunchState n) (h : s.launcher = .launching) :
      LStep n st s { s with launcher := .arrived }
  /-- The launching thread returns from `wait()` and starts joining; the
  barrier only releases once every party has arrived. -/
  | launcherRelease (s : LaunchState n) (h : s.launcher = .arrived)
      (hrel : barrierReleased s) :
      LStep n st s { s with launcher := .joining 0 [] }
  /-- Joining: `future.get()` on worker `k` returns once that worker has finished;
  the outcome keeps the originating index as its identifier. -/
  | launcherJoin (s : LaunchState n) (k : Nat) (acc : List (Nat × Nat)) (v : Nat)
      (h : s.launcher = .joining k acc) (hk : k < n)
      (hw : s.worker ⟨k, hk⟩ = .finished v) :
      LStep n st s { s with launcher := .joining (k + 1) (acc ++ [(k, v)]) }
  /-- All `n` futures joined: the loop over `mounters` ends. -/
  | launcherReturn (s : LaunchState n) (acc : List (Nat × Nat))
      (h : s.launcher = .joining n acc) :
      LStep n st s { s with launcher := .returned acc }

/-- States reachable from the start of the launch phase. -/
inductive LReach (n : Nat) (st : Nat → Nat) : LaunchState n → Prop where
  | init : LReach n st (initState n)
  | step {s s' : LaunchState n} (h : LReach n st s) (hs : LStep n st s s') :
      LReach n st s'

/-- The invariant carried through the launch phase. -/
def LaunchInv (n : Nat) (st : Nat → Nat) (s : LaunchState n) : Prop :=
  (∀ i : Fin n, (s.worker i = .mounting ∨ ∃ v, s.worker i = .finished v) →
    barrierReleased s) ∧
  (∀ (i : Fin n) (v : Nat), s.worker i = .finished v → v = st i) ∧
  (∀ k acc, s.launcher = .joining k acc →
    k ≤ n ∧ acc = (List.range k).map (fun j => (j, st j)) ∧
    ∀ (j : Nat) (hj : j < n), j < k → s.worker ⟨j, hj⟩ = .finished (st j)) ∧
  (∀ acc, s.launcher = .returned acc →
    acc = (List.range n).map (fun j => (j, st j)) ∧
    ∀ i : Fin n, s.worker i = .finished (st i))

theorem lstep_mono {n : Nat} {st : Nat → Nat} {s s' : LaunchState n}
    (hs : LStep n st s s') :
    (∀ j : Fin n, arrivedW (s.worker j) = true → arrivedW (s'.worker j) = true) ∧
    (arrivedL s.launcher = true → arrivedL s'.launcher = true) := by
  cases hs with
  | workerArrive i h =>
    refine ⟨fun j hj => ?_, fun hl => hl⟩
    by_cases hij : j = i
    · subst hij; simp [Function.update, arrivedW]
    · simpa [Function.update, hij] using hj
  | workerStartMount i h hrel =>
    refine ⟨fun j hj => ?_, fun hl => hl⟩
    by_cases hij : j = i
    · subst hij; simp [Function.update, arrivedW]
    · simpa [Function.update, hij] using hj
  | workerFinish i h =>
    refine ⟨fun j hj => ?_, fun hl => hl⟩
    by_cases hij : j = i
    · subst hij; simp [Function.update, arrivedW]
    · simpa [Function.update, hij] using hj
  | launcherArrive h => exact ⟨fun j hj => hj, fun _ => by simp [arrivedL]⟩
  | launcherRelease h hrel => exact ⟨fun j hj => hj, fun _ => by simp [arrivedL]⟩
  | launcherJoin k acc v h hk hw => exact ⟨fun j hj => hj, fun _ => by simp [arrivedL]⟩
  | launcherReturn acc h => exact ⟨fun j hj => hj, fun _ => by simp [arrivedL]⟩

theorem barrierReleased_mono {n : Nat} {st : Nat → Nat} {s s' : LaunchState n}
    (hs : LStep n st s s') (h : barrierReleased s) : barrierReleased s' :=
  ⟨fun j => (lstep_mono hs).1 j (h.1 j), (lstep_mono hs).2 h.2⟩

theorem launchInv_init (n : Nat) (st : Nat → Nat) : LaunchInv n st (initState n) := by
  refine ⟨fun i hi => ?_, fun i v hv => ?_, fun k acc hl => ?_, fun acc hl => ?_⟩
  · rcases hi with h | ⟨v, h⟩ <;> simp [initState] at h
  · simp [initState] at hv
  · simp [initState] at hl
  · simp [initState] at hl

theorem launchInv_step {n : Nat} {st : Nat → Nat} {s s' : LaunchState n}
    (hs : LStep n st s s') (hi : LaunchInv n st s) : LaunchInv n st s' := by
  obtain ⟨hA, hB, hC, hD⟩ := hi
  have hmono := lstep_mono hs
  have hrelmono : barrierReleased s → barrierReleased s' := fun hr =>
    ⟨fun j => hmono.1 j (hr.1 j), hmono.2 hr.2⟩
  cases hs with
  | workerArrive i h =>
    refine ⟨fun j hj => ?_, fun j v hv => ?_, fun k acc hl => ?_, fun acc hl => ?_⟩
    · by_cases hij : j = i
      · subst hij; simp [Function.update] at hj
      · simp only [Function.update, dif_neg hij] at hj
        exact hrelmono (hA j (by simpa using hj))
    · by_cases hij : j = i
      · subst hij; simp [Function.update] at hv
      · simp only [Function.update, dif_neg hij] at hv
        exact hB j v (by simpa using hv)
    · obtain ⟨hk, hacc, hfin⟩ := hC k acc hl
      refine ⟨hk, hacc, fun j hj hjk => ?_⟩
      have hji : (⟨j, hj⟩ : Fin n) ≠ i := by
        intro he
        rw [← he] at h
        rw [hfin j hj hjk] at h
        exact absurd h (by simp)
      simp only [Function.update, dif_neg hji]
      exact hfin j hj hjk
    · obtain ⟨hacc, hfin⟩ := hD acc hl
      refine ⟨hacc, fun j => ?_⟩
      have hji : j ≠ i := by
        intro he
        rw [← he] at h
        rw [hfin j] at h
        exact absurd h (by simp)
      simp only [Function.update, dif_neg hji]
      exact hfin j
  | workerStartMount i h hrel =>
    refine ⟨fun j hj => ?_, fun j v hv => ?_, fun k acc hl => ?_, fun acc hl => ?_⟩
    · exact hrelmono hrel
    · by_cases hij : j = i
      · subst hij; simp [Function.update] at hv
      · simp only [Function.update, dif_neg hij] at hv
        exact hB j v (by simpa using hv)
    · obtain ⟨hk, hacc, hfin⟩ := hC k acc hl
      refine ⟨hk, hacc, fun j hj hjk => ?_⟩
      have hji : (⟨j, hj⟩ : Fin n) ≠ i := by
        intro he
        rw [← he] at h
        rw [hfin j hj hjk] at h
        exact absurd h (by simp)
      simp only [Function.update, dif_neg hji]
      exact hfin j hj hjk
    · obtain ⟨hacc, hfin⟩ := hD acc hl
      refine ⟨hacc, fun j => ?_⟩
      have hji : j ≠ i := by
        intro he
        rw [← he] at h
        rw [hfin j] at h
        exact absurd h (by simp)
      simp only [Function.update, dif_neg hji]
      exact hfin j
  | workerFinish i h =>
    refine ⟨fun j hj => ?_, fun j v hv => ?_, fun k acc hl => ?_, fun acc hl => ?_⟩
    · exact hrelmono (hA i (Or.inl h))
    · by_cases hij : j = i
      · subst hij
        simp only [Function.update, dif_pos rfl] at hv
        exact (WorkerPhase.finished.injEq _ _ ▸ hv).symm
      · simp only [Function.update, dif_neg hij] at hv
        exact hB j v (by simpa using hv)
    · obtain ⟨hk, hacc, hfin⟩ := hC k acc hl
      refine ⟨hk, hacc, fun j hj hjk => ?_⟩
      by_cases hji : (⟨j, hj⟩ : Fin n) = i
      · rw [← hji] at h
        rw [hfin j hj hjk] at h
        exact absurd h (by simp)
      · simp only [Function.update, dif_neg hji]
        exact hfin j hj hjk
    · obtain ⟨hacc, hfin⟩ := hD acc hl
      refine ⟨hacc, fun j => ?_⟩
      by_cases hji : j = i
      · rw [← hji] at h
        rw [hfin j] at h
        exact absurd h (by simp)
      · simp only [Function.update, dif_neg hji]
        exact hfin j
  | launcherArrive h =>
    refine ⟨fun j hj => ?_, hB, fun k acc hl => ?_, fun acc hl => ?_⟩
    · exact hrelmono (hA j hj)
    · exact absurd hl (by simp)
    · exact absurd hl (by simp)
  | launcherRelease h hrel =>
    refine ⟨fun j hj => ?_, hB, fun k acc hl => ?_, fun acc hl => ?_⟩
    · exact hrelmono hrel
    · simp only [LauncherPhase.joining.injEq] at hl
      obtain ⟨hk, hacc⟩ := hl
      subst hk; subst hacc
      exact ⟨Nat.zero_le n, by simp, fun j hj hjk => absurd hjk (by omega)⟩
    · exact absurd hl (by simp)
  | launcherJoin k acc v h hk hw =>
    obtain ⟨hkn, hacc, hfin⟩ := hC k acc h
    have hv : v = st k := hB ⟨k, hk⟩ v hw
    refine ⟨fun j hj => ?_, hB, fun k' acc' hl => ?_, fun acc' hl => ?_⟩
    · exact hrelmono (hA j hj)
    · simp only [LauncherPhase.joining.injEq] at hl
      obtain ⟨hk', hacc'⟩ := hl
      subst hk'; subst hacc'
      refine ⟨by omega, ?_, fun j hj hjk => ?_⟩
      · rw [hacc, hv, List.range_succ, List.map_append]
        simp
      · rcases Nat.lt_or_ge j k with hlt | hge
        · exact hfin j hj hlt
        · have : j = k := by omega
          subst this
          rw [hw, hv]
    · exact absurd hl (by simp)
  | launcherReturn acc h =>
    obtain ⟨hkn, hacc, hfin⟩ := hC n acc h
    refine ⟨fun j hj => ?_, hB, fun k' acc' hl => ?_, fun acc' hl => ?_⟩
    · exact hrelmono (hA j hj)
    · exact absurd hl (by simp)
    · simp only [LauncherPhase.returned.injEq] at hl
      subst hl
      exact ⟨hacc, fun i => by simpa using hfin i.val i.isLt i.isLt⟩

theorem launchInv_reach {n : Nat} {st : Nat → Nat} {s : LaunchState n}
    (h : LReach n st s) : LaunchInv n st s := by
  induction h with
  | init => exact launchInv_init n st
  | step h hs ih => exact launchInv_step hs ih

/-! ## Helper lemmas for the claim theorems -/

theorem splitFieldsGo_ne_nil (cs cur : List Char) (sep : Bool) :
    splitFieldsGo cs cur sep ≠ [] := by
  induction cs generalizing cur sep with
  | nil => simp [splitFieldsGo]
  | cons c rest ih =>
    rw [splitFieldsGo]
    split
    · split
      · exact ih [] true
      · simp
    · exact ih (c :: cur) false

theorem splitFields_ne_nil (s : String) : splitFields s ≠ [] :=
  splitFieldsGo_ne_nil s.data [] false

theorem getElem?_one_isSome {α : Type} (l : List α) :
    l[1]?.isSome = decide (2 ≤ l.length) := by
  match l with
  | [] => rfl
  | [a] => rfl
  | a :: b :: tl => simp

theorem getElem?_zero_isSome_of_ne_nil {α : Type} (l : List α) (h : l ≠ []) :
    l[0]?.isSome = true := by
  match l with
  | [] => exact absurd rfl h
  | a :: tl => simp

theorem scanMounts_append_passing (m : List (String × String)) (pre rest : List String)
    (hpre : ∀ l ∈ pre, checkMountLine m l = .skipped ∨ checkMountLine m l = .ok) :
    scanMounts m (pre ++ rest) = scanMounts m rest := by
  induction pre with
  | nil => rfl
  | cons l tl ih =>
    have hl := hpre l (List.mem_cons_self l tl)
    have htl : ∀ x ∈ tl, checkMountLine m x = .skipped ∨ checkMountLine m x = .ok :=
      fun x hx => hpre x (List.mem_cons_of_mem l hx)
    rcases hl with h | h <;>
      simp [scanMounts, h, ih htl]

theorem scanMounts_cons_failing (m : List (String × String)) (line : String)
    (post : List String) (e : LineCheck) (he : checkMountLine m line = e)
    (h1 : e ≠ .skipped) (h2 : e ≠ .ok) :
    scanMounts m (line :: post) = .failure e := by
  rw [scanMounts, he]
  cases e with
  | skipped => exact absurd rfl h1
  | ok => exact absurd rfl h2
  | notFound dev => rfl
  | badMountpoint dev live exp => rfl
  | oob => rfl

/-! ## Claim theorems -/

/-- Claim C1: the claim states that the cleanup procedure runs at most once
per process lifetime and that any trigger after the first observes it
consumed.  The code violates this: the end-of-`main` invocation (lines
287–289) runs the stored function but, unlike `sig_handler` (line 63), never
calls `cleanup.reset()`, so an interrupt signal delivered after normal
completion finds the optional still engaged and runs the cleanup body a
second time.  Evaluated here: starting from the armed cell, normal
completion followed by a signal executes the body twice; normal completion
leaves the cell armed; the opposite order (signal first) executes it exactly
once, since the handler does reset. -/
theorem cleanup_reruns_after_normal_completion :
    (sigHandlerStep (mainExitStep { armed := true, runs := 0 })).runs = 2 ∧
    (mainExitStep { armed := true, runs := 0 }).armed = true ∧
    (mainExitStep (sigHandlerStep { armed := true, runs := 0 })).runs = 1 := by
  decide

/-- Claim C4: the claim states that records are classified by the third
whitespace-separated field (the filesystem type).  The code instead tests
`fields[1]` — the mountpoint field — against `nfs`/`nfs4` (line 264),
contradicting the field-numbering comment directly above it (lines 259–261).
Evaluated here: a record whose third field is `nfs` but whose mountpoint is
an ordinary path is skipped (though its device is absent from the map), while
a record of filesystem type `ext4` whose mountpoint happens to be the string
`nfs` is checked and fails the lookup. -/
theorem filter_tests_mountpoint_field :
    checkMountLine [] "dev mp nfs rw 0 0" = .skipped ∧
    checkMountLine [] "dev nfs ext4 rw 0 0" = .notFound "dev" ∧
    (splitFields "dev mp nfs rw 0 0")[2]? = some "nfs" ∧
    (splitFields "dev nfs ext4 rw 0 0")[2]? = some "ext4" := by
  decide

/-- Claim C6: for every `N ≥ 0` allocation creates exactly `N` server
directories under the `mount` subtree and `N` client directories under the
`client` subtree, named by the zero-padded index (index 7 → `d0007`); the
resulting pairs carry the identifiers `0 .. N-1` in order, and no two pairs
share a server or a client directory. -/
theorem allocation_correct (tmpdir : String) (n : Nat) :
    (allocatePairs tmpdir n).length = n ∧
    (allocatePairs tmpdir n).map MountPair.ident = List.range n ∧
    (allocatePairs tmpdir n).map MountPair.serverDir =
      (List.range n).map (mountDirPath tmpdir) ∧
    (allocatePairs tmpdir n).map MountPair.clientDir =
      (List.range n).map (clientDirPath tmpdir) ∧
    ((allocatePairs tmpdir n).map MountPair.serverDir).Nodup ∧
    ((allocatePairs tmpdir n).map MountPair.clientDir).Nodup ∧
    dirName 7 = "d0007" := by
  refine ⟨by simp [allocatePairs], ?_, ?_, ?_, ?_, ?_, by decide⟩
  · simp only [allocatePairs, List.map_map]
    exact List.map_id _
  · simp only [allocatePairs, List.map_map]
    rfl
  · simp only [allocatePairs, List.map_map]
    rfl
  · simp only [allocatePairs, List.map_map]
    exact (List.nodup_range n).map (mountDirPath_inj tmpdir)
  · simp only [allocatePairs, List.map_map]
    exact (List.nodup_range n).map (clientDirPath_inj tmpdir)

/-- Claim C7: for every `N ≥ 0` the export table is the begin marker,
exactly `N` entry lines, and the end marker; each entry line is the rendered
server directory, a tab, and `*(` options `)` with the comma-separated
option string; and the synthetic filesystem ids of the entries are pairwise
distinct. -/
theorem export_table_correct (tmpdir : String) (n : Nat) :
    exportLines tmpdir n =
      beginMarker :: (((List.range n).map (exportEntry tmpdir)) ++ [endMarker]) ∧
    ((List.range n).map (exportEntry tmpdir)).length = n ∧
    (List.range n).map (exportEntry tmpdir) = (List.range n).map (fun d =>
      quotePath (mountDirPath tmpdir d) ++ "\t*(" ++
        ("rw,no_subtree_check,no_root_squash,fsid=" ++ fsid d) ++ ")") ∧
    ((List.range n).map fsid).Nodup := by
  refine ⟨rfl, by simp, rfl, (List.nodup_range n).map fsid_inj⟩

/-- Claim C9: when preservation is requested the cleanup procedure still
unmounts, removes the export file and re-runs `exportfs`, but performs no
deletion of the temporary root; without preservation it additionally removes
the temporary root tree. -/
theorem cleanup_preserve_behavior (dir : String) (h : dir ≠ "") :
    cleanupActions true dir =
      [.umountAllNfs, .removeExportsFile, .runExportfs] ∧
    cleanupActions false dir =
      [.umountAllNfs, .removeExportsFile, .runExportfs, .removeTempRoot dir] := by
  refine ⟨?_, ?_⟩ <;> simp [cleanupActions, deleteNow, h]

/-- Witness for `cleanup_preserve_behavior` at a concrete temporary root. -/
theorem cleanup_preserve_behavior_witness :
    cleanupActions true "/tmp/paramount.x1y2z3" =
      [.umountAllNfs, .removeExportsFile, .runExportfs] ∧
    cleanupActions false "/tmp/paramount.x1y2z3" =
      [.umountAllNfs, .removeExportsFile, .runExportfs,
        .removeTempRoot "/tmp/paramount.x1y2z3"] :=
  cleanup_preserve_behavior "/tmp/paramount.x1y2z3" (by decide)

/-- Claim C10: for every mount-table line, the verifier's unconditional
access to `fields[1]` (and its subsequent access to `fields[0]`) is in
bounds exactly when the split yields at least two tokens; the split of the
empty line yields a single (empty) token, so there the `fields[1]` access is
out of bounds. -/
theorem mount_line_field_access (m : List (String × String)) (line : String) :
    ((splitFields line)[1]?).isSome = decide (2 ≤ (splitFields line).length) ∧
    ((splitFields line)[0]?).isSome = true ∧
    splitFields "" = [""] ∧
    checkMountLine m "" = .oob := by
  refine ⟨getElem?_one_isSome _,
    getElem?_zero_isSome_of_ne_nil _ (splitFields_ne_nil line), by decide, rfl⟩

/-- Oracle for the export-activation-failure scenario: every collaborator
call succeeds except that the `exportfs -ra` invocation reports error 1, and
the live mount table holds one NFS-tagged record with an untracked device. -/
def c2Oracle : Oracle :=
  { allOkOracle with exportfsErr := 1, mountLines := ["x nfs q r 0 0"] }

/-- Claim C2: counterexample.  The claim states that every fatal error path
— and in particular export activation returning non-zero — executes the
cleanup procedure before the process exits with code 1.  In the code,
`exportfs` failure reaches `EFMT_SYS`, i.e. `error_sys`, which calls
`exit(1)` directly: the stack is not unwound and neither the cleanup
invocation at lines 287–289 nor `tdobj`'s destructor runs.  Evaluated at
`N = 2` with export activation failing: the run aborts before any mount
attempt with exit code 1, but cleanup has not run. -/
theorem exportfs_failure_skips_cleanup :
    runMain "/t" 2 c2Oracle =
      { exitCode := 1, cleanupRan := false, mountsAttempted := false,
        failures := 0, reachedVerification := false, ub := false } := by
  decide

/-- Claim C2, amended: a fatal export-activation failure aborts the run
before any mount attempt with exit code 1, and a fatal directory-creation
failure or verification mismatch likewise exits with code 1, but none of
these paths runs the cleanup procedure (they go through `error` /
`error_sys`, which call `exit(1)` directly); of the fatal paths only the
export-file write failure, which throws a C++ exception caught in `main`,
runs cleanup before the process exits with code 1. -/
theorem fatal_error_cleanup_paths (tmpdir : String) (n : Nat) (o : Oracle)
    (dev : String)
    (hroot : o.mkMountRootOk = true)
    (hdirs : (List.range n).all o.mkMountDirOk = true)
    (hw : o.exportWriteOk = true)
    (hefs : o.exportfsErr ≠ 0)
    (hcroot : o.mkClientRootOk = true)
    (hcdirs : (List.range n).all o.mkClientDirOk = true)
    (hopen : o.mountsOpenOk = true)
    (hscan : scanMounts (expectedMap tmpdir n) o.mountLines =
      .failure (.notFound dev)) :
    runMain tmpdir n o =
      { exitCode := 1, cleanupRan := false, mountsAttempted := false,
        failures := 0, reachedVerification := false, ub := false } ∧
    runMain tmpdir n { o with mkMountRootOk := false } =
      { exitCode := 1, cleanupRan := false, mountsAttempted := false,
        failures := 0, reachedVerification := false, ub := false } ∧
    runMain tmpdir n { o with exportWriteOk := false } =
      { exitCode := 1, cleanupRan := true, mountsAttempted := false,
        failures := 0, reachedVerification := false, ub := false } ∧
    runMain tmpdir n { o with exportfsErr := 0 } =
      { exitCode := 1, cleanupRan := false, mountsAttempted := true,
        failures := failCount o n, reachedVerification := true, ub := false } := by
  refine ⟨?_, ?_, ?_, ?_⟩ <;>
    simp [runMain, hroot, hdirs, hw, hefs, hcroot, hcdirs, hopen, hscan, failCount]

/-- Witness for `fatal_error_cleanup_paths` at `N = 2` with the concrete
oracle `c2Oracle`. -/
theorem fatal_error_cleanup_paths_witness :
    runMain "/t" 2 c2Oracle =
      { exitCode := 1, cleanupRan := false, mountsAttempted := false,
        failures := 0, reachedVerification := false, ub := false } ∧
    runMain "/t" 2 { c2Oracle with mkMountRootOk := false } =
      { exitCode := 1, cleanupRan := false, mountsAttempted := false,
        failures := 0, reachedVerification := false, ub := false } ∧
    runMain "/t" 2 { c2Oracle with exportWriteOk := false } =
      { exitCode := 1, cleanupRan := true, mountsAttempted := false,
        failures := 0, reachedVerification := false, ub := false } ∧
    runMain "/t" 2 { c2Oracle with exportfsErr := 0 } =
      { exitCode := 1, cleanupRan := false, mountsAttempted := true,
        failures := failCount c2Oracle 2, reachedVerification := true, ub := false } :=
  fatal_error_cleanup_paths "/t" 2 c2Oracle "x" rfl rfl rfl (by decide) rfl rfl rfl
    (by decide)

/-- Oracle for the partial-worker-failure scenario: all provisioning
succeeds, worker 0's future returns 1 while all others return 0, and the
live mount table is empty. -/
def c3Oracle : Oracle :=
  { allOkOracle with workerRet := fun d => if d = 0 then 1 else 0 }

/-- Claim C3: counterexample.  The claim states that when at least one mount
worker returns non-zero and nothing else fails, the process exits with a
non-zero exit code.  In the code the failure count is only printed to the
error stream (lines 240–242); `exit_code` is never set, so `main` returns
`EXIT_SUCCESS`.  Evaluated at `N = 2` with worker 0 failing: the run reaches
verification, counts one failure, and exits 0. -/
theorem worker_failure_exit_code_zero :
    runMain "/t" 2 c3Oracle =
      { exitCode := 0, cleanupRan := true, mountsAttempted := true,
        failures := 1, reachedVerification := true, ub := false } := by
  decide

/-- Claim C3, amended: if at least one mount worker's future returns a
non-zero status and no other fatal error occurs, the run still proceeds to
verify the live mount table on whatever succeeded and reports the failure
count on the error stream, but worker failures do not influence
the exit code: the process exits 0 when verification passes. -/
theorem worker_failures_nonfatal (tmpdir : String) (n : Nat) (o : Oracle)
    (hroot : o.mkMountRootOk = true)
    (hdirs : (List.range n).all o.mkMountDirOk = true)
    (hw : o.exportWriteOk = true)
    (hefs : o.exportfsErr = 0)
    (hcroot : o.mkClientRootOk = true)
    (hcdirs : (List.range n).all o.mkClientDirOk = true)
    (hopen : o.mountsOpenOk = true)
    (hscan : scanMounts (expectedMap tmpdir n) o.mountLines = .allOk) :
    runMain tmpdir n o =
      { exitCode := 0, cleanupRan := true, mountsAttempted := true,
        failures := failCount o n, reachedVerification := true, ub := false } := by
  simp [runMain, hroot, hdirs, hw, hefs, hcroot, hcdirs, hopen, hscan, failCount]

/-- Witness for `worker_failures_nonfatal` at `N = 2` with worker 0 failing;
the failure count is 1 and the exit code is 0. -/
theorem worker_failures_nonfatal_witness :
    runMain "/t" 2 c3Oracle =
      { exitCode := 0, cleanupRan := true, mountsAttempted := true,
        failures := failCount c3Oracle 2, reachedVerification := true,
        ub := false } ∧
    failCount c3Oracle 2 = 1 :=
  ⟨worker_failures_nonfatal "/t" 2 c3Oracle rfl rfl rfl rfl rfl rfl rfl rfl,
    by decide⟩

/-- Claim C5: for every live mount record that passes the implemented NFS
filter (its `fields[1]` is `nfs` or `nfs4`), the check fails naming the
record's device `fields[0]` when the device is absent from the expected
map, and likewise when the expectation found for the device differs from
the record's `fields[1]`; and the scan stops at the first such failing
record, never reaching the lines after it. -/
theorem nfs_filtered_record_check (m : List (String × String)) (line : String)
    (f0 f1 : String)
    (h0 : (splitFields line)[0]? = some f0)
    (h1 : (splitFields line)[1]? = some f1)
    (hf : f1 = "nfs" ∨ f1 = "nfs4") :
    (m.lookup f0 = none → checkMountLine m line = .notFound f0) ∧
    (∀ exp, m.lookup f0 = some exp → exp ≠ f1 →
      checkMountLine m line = .badMountpoint f0 f1 exp) ∧
    (∀ pre post e,
      (∀ l ∈ pre, checkMountLine m l = .skipped ∨ checkMountLine m l = .ok) →
      checkMountLine m line = e → e ≠ .skipped → e ≠ .ok →
      scanMounts m (pre ++ line :: post) = .failure e) := by
  have hstep : checkMountLine m line =
      match m.lookup f0 with
      | none => LineCheck.notFound f0
      | some exp =>
        if exp ≠ f1 then LineCheck.badMountpoint f0 f1 exp else LineCheck.ok := by
    simp only [checkMountLine]
    rw [h1, h0]
    rcases hf with hf | hf <;> subst hf <;> simp
  refine ⟨fun hl => ?_, fun exp hl hne => ?_,
    fun pre post e hpre he h1' h2' => ?_⟩
  · rw [hstep, hl]
  · rw [hstep, hl]
    simp [hne]
  · rw [scanMounts_append_passing m pre _ hpre]
    exact scanMounts_cons_failing m line post e he h1' h2'

/-- Witness for `nfs_filtered_record_check` on the record
`srv nfs o r 0 0` against a map expecting device `srv` at
`/client/d0003`. -/
theorem nfs_filtered_record_check_witness :
    (([("srv", "/client/d0003")] : List (String × String)).lookup "srv" = none →
      checkMountLine [("srv", "/client/d0003")] "srv nfs o r 0 0" =
        .notFound "srv") ∧
    (∀ exp,
      ([("srv", "/client/d0003")] : List (String × String)).lookup "srv" =
        some exp → exp ≠ "nfs" →
      checkMountLine [("srv", "/client/d0003")] "srv nfs o r 0 0" =
        .badMountpoint "srv" "nfs" exp) ∧
    (∀ pre post e,
      (∀ l ∈ pre, checkMountLine [("srv", "/client/d0003")] l = .skipped ∨
        checkMountLine [("srv", "/client/d0003")] l = .ok) →
      checkMountLine [("srv", "/client/d0003")] "srv nfs o r 0 0" = e →
      e ≠ .skipped → e ≠ .ok →
      scanMounts [("srv", "/client/d0003")] (pre ++ "srv nfs o r 0 0" :: post) =
        .failure e) :=
  nfs_filtered_record_check [("srv", "/client/d0003")] "srv nfs o r 0 0"
    "srv" "nfs" (by decide) (by decide) (Or.inl rfl)

/-- Claim C8: in every reachable interleaving of the launch phase, no worker
is running (or has run) its mount invocation unless every one of the `n`
workers and the launching thread have arrived at the `n + 1`-party barrier;
and when the launching thread has returned from joining, every worker has
completed, and the collected outcome sequence pairs each index `0 .. n-1`
with the status returned by that worker's own lambda. -/
theorem barrier_launch_correct (n : Nat) (st : Nat → Nat) (s : LaunchState n)
    (h : LReach n st s) :
    (∀ i : Fin n, (s.worker i = .mounting ∨ ∃ v, s.worker i = .finished v) →
      (∀ j : Fin n, arrivedW (s.worker j) = true) ∧ arrivedL s.launcher = true) ∧
    (∀ acc, s.launcher = .returned acc →
      (∀ i : Fin n, s.worker i = .finished (st i)) ∧
      acc = (List.range n).map fun k => (k, st k)) := by
  have hinv := launchInv_reach h
  exact ⟨fun i hi => hinv.1 i hi,
    fun acc hl => ⟨(hinv.2.2.2 acc hl).2, (hinv.2.2.2 acc hl).1⟩⟩

/-- The final state of a complete single-worker launch in which the worker's
lambda returned 7. -/
def launchFinal : LaunchState 1 :=
  { worker := fun _ => .finished 7, launcher := .returned [(0, 7)] }

theorem launchFinal_reach : LReach 1 (fun _ => 7) launchFinal := by
  have h0 := @LReach.init 1 (fun _ => 7)
  have h1 := h0.step (LStep.workerArrive _ ⟨0, by omega⟩ rfl)
  have h2 := h1.step (LStep.launcherArrive _ rfl)
  have h3 := h2.step (LStep.workerStartMount _ ⟨0, by omega⟩ (by decide)
    (by refine ⟨fun j => ?_, rfl⟩; fin_cases j <;> decide))
  have h4 := h3.step (LStep.workerFinish _ ⟨0, by omega⟩ (by decide))
  have h5 := h4.step (LStep.launcherRelease _ rfl
    (by refine ⟨fun j => ?_, rfl⟩; fin_cases j <;> decide))
  have h6 := h5.step (LStep.launcherJoin _ 0 [] 7 rfl (by omega) (by decide))
  have h7 := h6.step (LStep.launcherReturn _ [(0, 7)] rfl)
  convert h7 using 2
  funext j
  fin_cases j
  decide

/-- Witness for `barrier_launch_correct` at the reachable final state of a
complete single-worker launch. -/
theorem barrier_launch_correct_witness :
    ((∀ i : Fin 1, (launchFinal.worker i = .mounting ∨
        ∃ v, launchFinal.worker i = .finished v) →
      (∀ j : Fin 1, arrivedW (launchFinal.worker j) = true) ∧
        arrivedL launchFinal.launcher = true) ∧
    (∀ acc, launchFinal.launcher = .returned acc →
      (∀ i : Fin 1, launchFinal.worker i = .finished 7) ∧
      acc = (List.range 1).map fun k => (k, 7))) :=
  barrier_launch_correct 1 (fun _ => 7) launchFinal launchFinal_reach

end Paramount
